import Mathlib

/-!
Shallow embedding of the subprocess runner core of this repository:
the argument codec (serializeArg / deserializeArg), the message router
over registered communication managers, the parent-side exit protocol of
invokeAsSubprocessAsync, the worker bootstrap, the node-argument
processing for the inspector port, and the StringBufferTerminalProvider.
All definitions are translated from the TypeScript sources in
apps/heft/src/utilities/subprocess/SubprocessRunnerBase.ts and the
StringBufferTerminalProvider source file.
-/

/-- JavaScript runtime values as they appear at the argument-codec boundary.
The codec supports undefined, null, string, number, boolean and Error
instances; `other` stands for any remaining value (plain object, array,
function, symbol, ...), carrying its string rendering, which is all
the failing branch of serializeArg observes of it. Numbers are modelled
as integers: the codec passes the numeric value through untouched, so
the modelling of the number line does not affect any codec claim. -/
inductive JSValue where
  | undef
  | null
  | str (s : String)
  | num (n : Int)
  | boolean (b : Bool)
  | error (message : String) (stack : Option String)
  | other (rendering : String)
deriving DecidableEq, Repr

/-- The value carried by a `Primitive`-tagged serialized argument
(string, number or boolean), per ISubprocessApiCallArgWithValue. -/
inductive PrimitiveValue where
  | str (s : String)
  | num (n : Int)
  | boolean (b : Bool)
deriving DecidableEq, Repr

/-- The wire representation of a serialized argument: a tagged union over
SupportedSerializableArgType. `unknownTag` represents an argument whose
type tag is none of the four supported tags (the default case of
deserializeArg), carrying the string rendering of that tag. -/
inductive ISubprocessApiCallArg where
  | undefinedArg
  | nullArg
  | primitive (value : PrimitiveValue)
  | errorArg (errorMessage : String) (errorStack : Option String)
  | unknownTag (tag : String)
deriving DecidableEq, Repr

/-- SubprocessRunnerBase.serializeArg: undefined and null map to their own
tags; an Error instance maps to the Error tag carrying message and stack;
string, number and boolean map to the Primitive tag; anything else throws
"Argument (...) is not supported in subprocess communication.". -/
def serializeArg : JSValue → Except String ISubprocessApiCallArg
  | .undef => .ok .undefinedArg
  | .null => .ok .nullArg
  | .error msg stack => .ok (.errorArg msg stack)
  | .str s => .ok (.primitive (.str s))
  | .num n => .ok (.primitive (.num n))
  | .boolean b => .ok (.primitive (.boolean b))
  | .other rendering =>
      .error ("Argument (" ++ rendering ++ ") is not supported in subprocess communication.")

/-- SubprocessRunnerBase.deserializeArg: the inverse tag dispatch; the
Error case builds a new Error from the carried message and overwrites its
stack with the carried stack; an unrecognized tag throws
"Unexpected arg type ...". -/
def deserializeArg : ISubprocessApiCallArg → Except String JSValue
  | .undefinedArg => .ok .undef
  | .nullArg => .ok .null
  | .errorArg msg stack => .ok (.error msg stack)
  | .primitive (.str s) => .ok (.str s)
  | .primitive (.num n) => .ok (.num n)
  | .primitive (.boolean b) => .ok (.boolean b)
  | .unknownTag t => .error ("Unexpected arg type \"" ++ t ++ "\".")

/-- The shapes serializeArg supports: everything except `other`. -/
def JSValue.isSupportedShape : JSValue → Bool
  | .other _ => false
  | _ => true

/-- Whether a serialized argument carries a tag outside the four
supported ones. -/
def ISubprocessApiCallArg.isUnknownTag : ISubprocessApiCallArg → Bool
  | .unknownTag _ => true
  | _ => false

/-- Whether an Except-computation threw. -/
def throwsError {α : Type} : Except String α → Bool
  | .error _ => true
  | .ok _ => false

/-- JavaScript truthiness of a value, as used by `if (exitError)`:
undefined, null, false, the empty string and zero are falsy; every other
supported value, every Error and every object is truthy. -/
def JSValue.truthy : JSValue → Bool
  | .undef => false
  | .null => false
  | .boolean b => b
  | .str s => !(s.isEmpty)
  | .num n => decide (n ≠ 0)
  | .error _ _ => true
  | .other _ => true

/-- The severity levels accepted by ITerminalProvider.write. The enum is
declared in the collaborator interface ITerminalProvider, outside the
sources at hand; modelled from the spec's terminal-sink interface: warn,
error and log are the levels the write switch names, and `verbose` stands
for any further member, which the switch's default clause sends to the
standard buffer. -/
inductive Severity where
  | warn
  | error
  | log
  | verbose
deriving DecidableEq, Repr

/-- StringBufferTerminalProvider state: the three internal string
buffers. The StringBuilder collaborator is modelled by a string with
append. -/
structure StringBufferTerminalProvider where
  standardBuffer : String := ""
  warningBuffer : String := ""
  errorBuffer : String := ""
deriving DecidableEq, Repr

/-- StringBufferTerminalProvider.write: warn appends to the warning
buffer, error to the error buffer, and log together with the default
clause appends to the standard buffer. -/
def StringBufferTerminalProvider.write (p : StringBufferTerminalProvider) (data : String)
    (severity : Severity) : StringBufferTerminalProvider :=
  match severity with
  | .warn => { p with warningBuffer := p.warningBuffer ++ data }
  | .error => { p with errorBuffer := p.errorBuffer ++ data }
  | _ => { p with standardBuffer := p.standardBuffer ++ data }

/-- StringBufferTerminalProvider._normalizeOutput: replace every escape
character by "[x]", every newline by "[n]" and every carriage return
by "[r]". -/
def normalizeOutput (s : String) : String :=
  ((s.replace "\x1b" "[x]").replace "\n" "[n]").replace "\r" "[r]"

/-- StringBufferTerminalProvider.getOutput. -/
def StringBufferTerminalProvider.getOutput (p : StringBufferTerminalProvider) : String :=
  normalizeOutput p.standardBuffer

/-- StringBufferTerminalProvider.getErrorOutput. -/
def StringBufferTerminalProvider.getErrorOutput (p : StringBufferTerminalProvider) : String :=
  normalizeOutput p.errorBuffer

/-- StringBufferTerminalProvider.getWarningOutput. -/
def StringBufferTerminalProvider.getWarningOutput (p : StringBufferTerminalProvider) : String :=
  normalizeOutput p.warningBuffer

/-- The seed of the static counter SubprocessRunnerBase._subprocessInspectorPort:
9229 is the default debug port, the counter starts just above it. -/
def subprocessInspectorPortInit : Nat := 9229 + 1

/-- The post-increment read of the static counter performed at the start
of _processNodeArgsForSubprocess: returns the allocated port (the old
counter value) and the new counter value. -/
def allocateInspectorPort (counter : Nat) : Nat × Nat := (counter, counter + 1)

/-- The port allocated by the n-th launch (0-indexed) when the counter
currently holds `counter`: run the post-increment n more times and read. -/
def nthPortFrom (counter : Nat) : Nat → Nat
  | 0 => (allocateInspectorPort counter).1
  | n + 1 => nthPortFrom (allocateInspectorPort counter).2 n

/-- The port allocated by the n-th launch of a parent process. -/
def nthInspectorPort (n : Nat) : Nat := nthPortFrom subprocessInspectorPortInit n

/-- The loop condition of _processNodeArgsForSubprocess: the part of the
argument before the first "=" (nodeArgs[i].split('=')[0]) is --inspect
or --inspect-brk. -/
def isInspectArg (arg : String) : Bool :=
  decide ((arg.splitOn "=").headD "" = "--inspect" ∨ (arg.splitOn "=").headD "" = "--inspect-brk")

/-- The flag name of a node argument: the part before the first "="
(nodeArgs[i].split('=')[0]). -/
def inspectFlagName (arg : String) : String := (arg.splitOn "=").headD ""

/-- The replacement written back by the loop when the condition holds:
the flag name followed by "=" and the allocated port. -/
def rewriteInspectArg (inspectPort : Nat) (nodeArg : String) : String :=
  inspectFlagName nodeArg ++ "=" ++ toString inspectPort

/-- The loop of _processNodeArgsForSubprocess applied along the (cloned)
argument list: each inspector-flag argument is replaced by the flag name
with the allocated port, setting willUseInspector; all other arguments
pass through. Returns the processed list and willUseInspector. -/
def processNodeArgsLoop (inspectPort : Nat) : List String → List String × Bool
  | [] => ([], false)
  | nodeArg :: rest =>
    let restResult := processNodeArgsLoop inspectPort rest
    if isInspectArg nodeArg then
      (rewriteInspectArg inspectPort nodeArg :: restResult.1, true)
    else
      (nodeArg :: restResult.1, restResult.2)

/-- A heap of string arrays by reference (array identity to contents),
capturing the aliasing between the caller's execArgv array and the array
_processNodeArgsForSubprocess works on. -/
def ArgvStore : Type := Nat → List String

/-- _processNodeArgsForSubprocess acting on the heap: the body first
clones the incoming array (`nodeArgs = [...nodeArgs]`, allocating
freshId, distinct from any live id, with a copy of the caller's
contents) and every write of the rewrite loop targets the fresh array;
returns the heap after the loop and the id of the returned array. -/
def processNodeArgsOnStore (st : ArgvStore) (callerId freshId inspectPort : Nat) :
    ArgvStore × Nat :=
  let cloned : ArgvStore := fun i => if i = freshId then st callerId else st i
  let final : ArgvStore := fun i =>
    if i = freshId then (processNodeArgsLoop inspectPort (cloned freshId)).1 else cloned i
  (final, freshId)

/-- A message on the channel (ISubprocessMessageBase): a type tag, and the
`error` field that the exit-message handler reads after casting the
message to ISubprocessExitMessage (undefined on messages that do not
carry one). -/
structure SubprocessMessage where
  type : String
  error : ISubprocessApiCallArg := .undefinedArg
deriving DecidableEq, Repr

/-- A registered communication manager, seen through the capability
contract the router uses: the two can-handle predicates. The
side-effecting receive methods are modelled by recording which manager
the router delivered the message to. -/
structure SubprocessCommunicationManager where
  canHandleMessageFromParentProcess : SubprocessMessage → Bool
  canHandleMessageFromSubprocess : SubprocessMessage → Bool

/-- The loop of _receiveMessageFromParentProcess over the registered
managers, carrying the registration index of the head manager: the first
manager whose predicate accepts the message receives it (the delivery is
recorded as its index) and the loop returns; if none accepts, the router
throws naming the message type. -/
def routeFromParentLoop (message : SubprocessMessage) :
    List SubprocessCommunicationManager → Nat → Except String (List Nat)
  | [], _ =>
      .error ("Subprocess communication manager. No communication manager can handle message type \""
        ++ message.type ++ "\" from parent process.")
  | manager :: rest, i =>
      if manager.canHandleMessageFromParentProcess message then .ok [i]
      else routeFromParentLoop message rest (i + 1)

/-- SubprocessRunnerBase._receiveMessageFromParentProcess. -/
def receiveMessageFromParentProcess (managers : List SubprocessCommunicationManager)
    (message : SubprocessMessage) : Except String (List Nat) :=
  routeFromParentLoop message managers 0

/-- The loop of _receiveMessageFromSubprocess over the registered
managers, carrying the registration index of the head manager. -/
def routeFromSubprocessLoop (message : SubprocessMessage) :
    List SubprocessCommunicationManager → Nat → Except String (List Nat)
  | [], _ =>
      .error ("Subprocess communication manager. No communication manager can handle message type \""
        ++ message.type ++ "\" from subprocess.")
  | manager :: rest, i =>
      if manager.canHandleMessageFromSubprocess message then .ok [i]
      else routeFromSubprocessLoop message rest (i + 1)

/-- SubprocessRunnerBase._receiveMessageFromSubprocess. -/
def receiveMessageFromSubprocess (managers : List SubprocessCommunicationManager)
    (message : SubprocessMessage) : Except String (List Nat) :=
  routeFromSubprocessLoop message managers 0

/-- A concrete manager standing in for the TerminalProviderManager
registered by the constructor (its implementation file lies outside the
sources at hand): per the capability contract its predicates are
membership tests of the message type in the manager's owned type set,
here the single type "terminal". Used to evaluate router theorems at
concrete inputs. -/
def terminalLikeManager : SubprocessCommunicationManager where
  canHandleMessageFromParentProcess := fun m => m.type == "terminal"
  canHandleMessageFromSubprocess := fun m => m.type == "terminal"

/-- A concrete manager standing in for the ScopedLoggerManager registered
by the constructor, owning the single message type "logger". -/
def loggerLikeManager : SubprocessCommunicationManager where
  canHandleMessageFromParentProcess := fun m => m.type == "logger"
  canHandleMessageFromSubprocess := fun m => m.type == "logger"

/-- The default manager used for out-of-range list indexing in theorem
statements; it claims no message. -/
def noManager : SubprocessCommunicationManager where
  canHandleMessageFromParentProcess := fun _ => false
  canHandleMessageFromSubprocess := fun _ => false

/-- The closure state of the handlers installed by invokeAsSubprocessAsync:
`let hasExited = false; let exitError: Error | undefined;`. The unset
exitError is JavaScript undefined. -/
structure ParentChannelState where
  hasExited : Bool := false
  exitError : JSValue := .undef
deriving DecidableEq, Repr

/-- The parent-side message handler installed by invokeAsSubprocessAsync:
an exit message after a recorded exit throws the duplicate-message error;
the first exit message records hasExited (before deserializing) and then
deserializes the carried argument into exitError; a non-exit message
after a recorded exit throws the message-after-exit error; a non-exit
message before the exit is dispatched to _receiveMessageFromSubprocess.
The result pairs the updated closure state with either the delivery
record of the dispatch or the thrown error. -/
def onSubprocessMessage (managers : List SubprocessCommunicationManager)
    (s : ParentChannelState) (message : SubprocessMessage) :
    ParentChannelState × Except String (List Nat) :=
  if message.type = "exit" then
    if s.hasExited then
      (s, .error ("Subprocess communication error. Received a duplicate \"" ++ message.type
        ++ "\" message."))
    else
      let s1 : ParentChannelState := { s with hasExited := true }
      match deserializeArg message.error with
      | .ok v => ({ s1 with exitError := v }, .ok [])
      | .error e => (s1, .error e)
  else
    if s.hasExited then
      (s, .error ("Subprocess communication error. Received a message after the subprocess "
        ++ "has indicated that it has exited"))
    else
      (s, receiveMessageFromSubprocess managers message)

/-- The outcome of the promise returned by invokeAsSubprocessAsync, plus
the unsettled states: still pending, or the message listener threw (which
settles nothing). -/
inductive LaunchOutcome where
  | pending (s : ParentChannelState)
  | resolved
  | rejected (error : JSValue)
  | listenerThrew (error : String)
deriving DecidableEq, Repr

/-- The close handler installed by invokeAsSubprocessAsync: a (truthy)
recorded exitError rejects with it; otherwise, if no exit message was
recorded, rejects with the fresh Error 'Subprocess exited before sending
"exit" message.'; otherwise resolves. -/
def onSubprocessClose (s : ParentChannelState) : LaunchOutcome :=
  if s.exitError.truthy then .rejected s.exitError
  else if !s.hasExited then
    .rejected (.error "Subprocess exited before sending \"exit\" message." none)
  else .resolved

/-- An event observed by the parent on the worker's channel. -/
inductive SubprocessEvent where
  | message (m : SubprocessMessage)
  | close
deriving DecidableEq, Repr

/-- The parent's event processing for one worker: messages are handled in
arrival order by the message handler (a throw escaping the handler stops
processing without settling the promise); the first close event settles
the promise via the close handler; without a close event the promise
stays pending. -/
def runChannelEvents (managers : List SubprocessCommunicationManager)
    (s : ParentChannelState) : List SubprocessEvent → LaunchOutcome
  | [] => .pending s
  | .close :: _ => onSubprocessClose s
  | .message m :: rest =>
    match onSubprocessMessage managers s m with
    | (s', .ok _) => runChannelEvents managers s' rest
    | (_, .error e) => .listenerThrew e

/-- Whether a launch outcome settles the promise (resolved or rejected). -/
def LaunchOutcome.isSettled : LaunchOutcome → Bool
  | .pending _ => false
  | .listenerThrew _ => false
  | _ => true

/-- The result of awaiting invokeAsync inside the worker bootstrap:
normal completion, or a throw (synchronous or asynchronous) caught by the
catch clause, carrying the caught Error. -/
inductive InvokeOutcome where
  | completed
  | threw (message : String) (stack : Option String)
deriving DecidableEq, Repr

/-- The `error` local of the bootstrap after the try/catch: undefined on
normal completion, the caught Error on a throw. -/
def caughtErrorValue : InvokeOutcome → JSValue
  | .completed => .undef
  | .threw message stack => .error message stack

/-- An action the worker bootstrap performs on its own process object. -/
inductive ProcessAction where
  | addMessageListener
  | removeAllListeners
  | sendMessage (m : SubprocessMessage)
deriving DecidableEq, Repr

/-- Whether a process action is a send. -/
def ProcessAction.isSend : ProcessAction → Bool
  | .sendMessage _ => true
  | _ => false

/-- Whether a process action removes all listeners. -/
def ProcessAction.isRemoveAllListeners : ProcessAction → Bool
  | .removeAllListeners => true
  | _ => false

/-- The messages sent in a trace of process actions. -/
def sentMessages (trace : List ProcessAction) : List SubprocessMessage :=
  trace.filterMap fun a =>
    match a with
    | .sendMessage m => some m
    | _ => none

/-- The worker bootstrap SUBPROCESS_RUNNER_INNER_INVOKE, as the trace of
process actions it performs given the outcome of awaiting invokeAsync:
install the inbound message listener; await invokeAsync, catching any
throw into `error`; then, in the finally clause on every path, remove all
listeners and send the exit message whose error field is
serializeArg(error). Were serializeArg to throw, the throw would escape
the finally clause before the send (the trace would end without a send);
the exit theorem shows this never happens, since `error` is undefined or
an Error. -/
def subprocessRunnerInnerInvoke (outcome : InvokeOutcome) : List ProcessAction :=
  ProcessAction.addMessageListener ::
    ProcessAction.removeAllListeners ::
      (match serializeArg (caughtErrorValue outcome) with
        | .ok a => [ProcessAction.sendMessage { type := "exit", error := a }]
        | .error _ => [])

/-- C6: for every supported value x (undefined, null, string, number,
boolean, or an Error with or without a stack), deserializeArg after
serializeArg returns exactly x: primitives, undefined and null come back
exactly, and an Error comes back with the same message and stack. -/
theorem deserializeArg_serializeArg_roundTrip (x : JSValue)
    (h : x.isSupportedShape = true) :
    (serializeArg x).bind deserializeArg = Except.ok x := by
  cases x <;> simp_all [serializeArg, deserializeArg, Except.bind, JSValue.isSupportedShape]

/-- Witness for C6: the round trip at a concrete Error value with a stack. -/
theorem deserializeArg_serializeArg_roundTrip_witness :
    (JSValue.error "boom" (some "at line 1")).isSupportedShape = true ∧
      (serializeArg (JSValue.error "boom" (some "at line 1"))).bind deserializeArg =
        Except.ok (JSValue.error "boom" (some "at line 1")) :=
  ⟨rfl, deserializeArg_serializeArg_roundTrip _ rfl⟩

/-- C7: the codec fails exactly on the unsupported cases. serializeArg
throws precisely when the value is not of a supported shape, and on an
unsupported value the error names the offending value; deserializeArg
throws precisely when the type tag is not one of the four supported tags,
and then the error names the tag. -/
theorem codec_fails_exactly_on_unsupported (x : JSValue) (r : String)
    (a : ISubprocessApiCallArg) (t : String) :
    throwsError (serializeArg x) = !x.isSupportedShape ∧
      serializeArg (JSValue.other r) =
        Except.error ("Argument (" ++ r ++ ") is not supported in subprocess communication.") ∧
      throwsError (deserializeArg a) = a.isUnknownTag ∧
      deserializeArg (ISubprocessApiCallArg.unknownTag t) =
        Except.error ("Unexpected arg type \"" ++ t ++ "\".") := by
  refine ⟨?_, rfl, ?_, rfl⟩
  · cases x <;> rfl
  · cases a with
    | primitive v => cases v <;> rfl
    | _ => rfl

/-- C10: every write appends the data to exactly one of the three
buffers, selected by severity (warn to the warning buffer, error to the
error buffer, any other severity to the standard buffer), leaving the
other two unchanged, as observed through getOutput, getWarningOutput and
getErrorOutput, which normalize the buffer contents. -/
theorem write_routes_to_exactly_one_buffer (p : StringBufferTerminalProvider)
    (data : String) (severity : Severity) :
    (p.write data severity).getWarningOutput =
        (if severity = Severity.warn then normalizeOutput (p.warningBuffer ++ data)
          else p.getWarningOutput) ∧
      (p.write data severity).getErrorOutput =
        (if severity = Severity.error then normalizeOutput (p.errorBuffer ++ data)
          else p.getErrorOutput) ∧
      (p.write data severity).getOutput =
        (if severity = Severity.warn ∨ severity = Severity.error then p.getOutput
          else normalizeOutput (p.standardBuffer ++ data)) := by
  cases severity <;>
    simp [StringBufferTerminalProvider.write, StringBufferTerminalProvider.getOutput,
      StringBufferTerminalProvider.getWarningOutput, StringBufferTerminalProvider.getErrorOutput]

/-- The counter allocation is a plain increment: the n-th launch from a
counter value c gets port c + n. -/
theorem nthPortFrom_eq (n counter : Nat) : nthPortFrom counter n = counter + n := by
  induction n generalizing counter with
  | zero => rfl
  | succ n ih =>
      have hstep : nthPortFrom counter (n + 1) = nthPortFrom (counter + 1) n := rfl
      rw [hstep, ih]
      omega

/-- The rewrite loop maps each argument independently, rewriting exactly
the inspector flags to the allocated port, and reports in willUseInspector
whether any argument was an inspector flag. -/
theorem processNodeArgsLoop_eq (inspectPort : Nat) (args : List String) :
    processNodeArgsLoop inspectPort args =
      (args.map (fun a => if isInspectArg a then rewriteInspectArg inspectPort a else a),
        args.any isInspectArg) := by
  induction args with
  | nil => rfl
  | cons a rest ih =>
      simp only [processNodeArgsLoop, ih, List.map_cons, List.any_cons]
      cases hb : isInspectArg a <;> simp [hb]

/-- C8: successive launches allocate distinct, strictly increasing
inspector ports, all above the default debug port 9229, and node-argument
processing rewrites exactly the --inspect / --inspect-brk flags (with or
without an explicit port) to the allocated port while every other flag
passes through unchanged; willUseInspector is set exactly when some flag
was an inspector flag. -/
theorem inspector_port_allocation_and_rewrite (i j : Nat) (hij : i < j)
    (args : List String) :
    9229 < nthInspectorPort i ∧
      nthInspectorPort i < nthInspectorPort j ∧
      (processNodeArgsLoop (nthInspectorPort i) args).1 =
        args.map (fun a =>
          if isInspectArg a then rewriteInspectArg (nthInspectorPort i) a else a) ∧
      (processNodeArgsLoop (nthInspectorPort i) args).2 = args.any isInspectArg := by
  refine ⟨?_, ?_, ?_, ?_⟩
  · simp only [nthInspectorPort, nthPortFrom_eq, subprocessInspectorPortInit]
    omega
  · simp only [nthInspectorPort, nthPortFrom_eq, subprocessInspectorPortInit]
    omega
  · rw [processNodeArgsLoop_eq]
  · rw [processNodeArgsLoop_eq]

/-- Witness for C8: the first two launches, on an argument list holding
an inspector flag with an explicit port and an unrelated flag. -/
theorem inspector_port_allocation_and_rewrite_witness :
    0 < 1 ∧
      9229 < nthInspectorPort 0 ∧
      nthInspectorPort 0 < nthInspectorPort 1 ∧
      (processNodeArgsLoop (nthInspectorPort 0)
          ["--inspect-brk=9229", "--enable-source-maps"]).1 =
        (["--inspect-brk=9229", "--enable-source-maps"] : List String).map (fun a =>
          if isInspectArg a then rewriteInspectArg (nthInspectorPort 0) a else a) ∧
      (processNodeArgsLoop (nthInspectorPort 0)
          ["--inspect-brk=9229", "--enable-source-maps"]).2 =
        (["--inspect-brk=9229", "--enable-source-maps"] : List String).any isInspectArg :=
  ⟨Nat.zero_lt_one, inspector_port_allocation_and_rewrite 0 1 Nat.zero_lt_one _⟩

/-- C9: _processNodeArgsForSubprocess never mutates the caller's array:
the clone taken before the rewriting loop means the loop's writes land in
a fresh array, so after the call the caller's array holds its original
contents while the returned fresh array holds the rewrite of them. -/
theorem processNodeArgs_leaves_caller_array_unchanged (st : ArgvStore)
    (callerId freshId inspectPort : Nat) (h : freshId ≠ callerId) :
    (processNodeArgsOnStore st callerId freshId inspectPort).1 callerId = st callerId ∧
      (processNodeArgsOnStore st callerId freshId inspectPort).1
          (processNodeArgsOnStore st callerId freshId inspectPort).2 =
        (processNodeArgsLoop inspectPort (st callerId)).1 := by
  constructor
  · simp [processNodeArgsOnStore, Ne.symm h]
  · simp [processNodeArgsOnStore]

/-- Witness for C9: a concrete heap with the caller's execArgv at id 0
and the fresh array at id 1. -/
theorem processNodeArgs_leaves_caller_array_unchanged_witness :
    (1 : Nat) ≠ 0 ∧
      (processNodeArgsOnStore (fun _ => ["--inspect"]) 0 1 9230).1 0 = ["--inspect"] ∧
      (processNodeArgsOnStore (fun _ => ["--inspect"]) 0 1 9230).1
          (processNodeArgsOnStore (fun _ => ["--inspect"]) 0 1 9230).2 =
        (processNodeArgsLoop 9230 ["--inspect"]).1 :=
  ⟨by decide,
    (processNodeArgs_leaves_caller_array_unchanged _ 0 1 9230 (by decide)).1,
    (processNodeArgs_leaves_caller_array_unchanged _ 0 1 9230 (by decide)).2⟩

/-- The parent-direction router loop delivers to exactly the first
manager (in registration order, offset by the start index) whose
predicate accepts the message, and throws naming the message type when
none does. -/
theorem routeFromParentLoop_spec (message : SubprocessMessage)
    (managers : List SubprocessCommunicationManager) (k : Nat) :
    (∀ res, routeFromParentLoop message managers k = Except.ok res →
      ∃ i, i < managers.length ∧ res = [k + i] ∧
        (managers.getD i noManager).canHandleMessageFromParentProcess message = true ∧
        ∀ j, j < i →
          (managers.getD j noManager).canHandleMessageFromParentProcess message = false) ∧
    (∀ e, routeFromParentLoop message managers k = Except.error e →
      (∀ m ∈ managers, m.canHandleMessageFromParentProcess message = false) ∧
      e = "Subprocess communication manager. No communication manager can handle message type \""
            ++ message.type ++ "\" from parent process.") := by
  induction managers generalizing k with
  | nil =>
    refine ⟨?_, ?_⟩
    · intro res h
      simp [routeFromParentLoop] at h
    · intro e h
      simp only [routeFromParentLoop, Except.error.injEq] at h
      exact ⟨by simp, h.symm⟩
  | cons m rest ih =>
    by_cases hm : m.canHandleMessageFromParentProcess message = true
    · refine ⟨?_, ?_⟩
      · intro res h
        simp only [routeFromParentLoop, if_pos hm, Except.ok.injEq] at h
        refine ⟨0, by simp, by simp [h.symm], by simpa using hm, ?_⟩
        intro j hj
        exact absurd hj (Nat.not_lt_zero j)
      · intro e h
        simp [routeFromParentLoop, if_pos hm] at h
    · have hm' : m.canHandleMessageFromParentProcess message = false := by
        simpa using hm
      refine ⟨?_, ?_⟩
      · intro res h
        simp only [routeFromParentLoop, if_neg hm] at h
        obtain ⟨i, hi, hres, hcan, hbefore⟩ := (ih (k + 1)).1 res h
        refine ⟨i + 1, by simpa using Nat.succ_lt_succ hi, ?_, by simpa using hcan, ?_⟩
        · rw [hres]
          congr 1
          omega
        · intro j hj
          cases j with
          | zero => simpa using hm'
          | succ j' =>
            have hj' : j' < i := by omega
            simpa using hbefore j' hj'
      · intro e h
        simp only [routeFromParentLoop, if_neg hm] at h
        obtain ⟨hall, he⟩ := (ih (k + 1)).2 e h
        refine ⟨?_, he⟩
        intro x hx
        rcases List.mem_cons.mp hx with hx0 | hx1
        · rw [hx0]
          exact hm'
        · exact hall x hx1

/-- The subprocess-direction router loop delivers to exactly the first
manager whose predicate accepts the message, and throws naming the
message type when none does. -/
theorem routeFromSubprocessLoop_spec (message : SubprocessMessage)
    (managers : List SubprocessCommunicationManager) (k : Nat) :
    (∀ res, routeFromSubprocessLoop message managers k = Except.ok res →
      ∃ i, i < managers.length ∧ res = [k + i] ∧
        (managers.getD i noManager).canHandleMessageFromSubprocess message = true ∧
        ∀ j, j < i →
          (managers.getD j noManager).canHandleMessageFromSubprocess message = false) ∧
    (∀ e, routeFromSubprocessLoop message managers k = Except.error e →
      (∀ m ∈ managers, m.canHandleMessageFromSubprocess message = false) ∧
      e = "Subprocess communication manager. No communication manager can handle message type \""
            ++ message.type ++ "\" from subprocess.") := by
  induction managers generalizing k with
  | nil =>
    refine ⟨?_, ?_⟩
    · intro res h
      simp [routeFromSubprocessLoop] at h
    · intro e h
      simp only [routeFromSubprocessLoop, Except.error.injEq] at h
      exact ⟨by simp, h.symm⟩
  | cons m rest ih =>
    by_cases hm : m.canHandleMessageFromSubprocess message = true
    · refine ⟨?_, ?_⟩
      · intro res h
        simp only [routeFromSubprocessLoop, if_pos hm, Except.ok.injEq] at h
        refine ⟨0, by simp, by simp [h.symm], by simpa using hm, ?_⟩
        intro j hj
        exact absurd hj (Nat.not_lt_zero j)
      · intro e h
        simp [routeFromSubprocessLoop, if_pos hm] at h
    · have hm' : m.canHandleMessageFromSubprocess message = false := by
        simpa using hm
      refine ⟨?_, ?_⟩
      · intro res h
        simp only [routeFromSubprocessLoop, if_neg hm] at h
        obtain ⟨i, hi, hres, hcan, hbefore⟩ := (ih (k + 1)).1 res h
        refine ⟨i + 1, by simpa using Nat.succ_lt_succ hi, ?_, by simpa using hcan, ?_⟩
        · rw [hres]
          congr 1
          omega
        · intro j hj
          cases j with
          | zero => simpa using hm'
          | succ j' =>
            have hj' : j' < i := by omega
            simpa using hbefore j' hj'
      · intro e h
        simp only [routeFromSubprocessLoop, if_neg hm] at h
        obtain ⟨hall, he⟩ := (ih (k + 1)).2 e h
        refine ⟨?_, he⟩
        intro x hx
        rcases List.mem_cons.mp hx with hx0 | hx1
        · rw [hx0]
          exact hm'
        · exact hall x hx1

/-- C5: for each direction, the router scans the registered managers in
registration order and delivers the message to exactly the first whose
can-handle predicate for that direction accepts it (the delivery record
is that single manager's registration index) and to no other manager;
when no registered manager claims the message it throws an error naming
the message's type. -/
theorem router_delivers_to_first_claiming_manager
    (managers : List SubprocessCommunicationManager) (message : SubprocessMessage) :
    (∀ res, receiveMessageFromParentProcess managers message = Except.ok res →
      ∃ i, i < managers.length ∧ res = [i] ∧
        (managers.getD i noManager).canHandleMessageFromParentProcess message = true ∧
        ∀ j, j < i →
          (managers.getD j noManager).canHandleMessageFromParentProcess message = false) ∧
    (∀ e, receiveMessageFromParentProcess managers message = Except.error e →
      (∀ m ∈ managers, m.canHandleMessageFromParentProcess message = false) ∧
      e = "Subprocess communication manager. No communication manager can handle message type \""
            ++ message.type ++ "\" from parent process.") ∧
    (∀ res, receiveMessageFromSubprocess managers message = Except.ok res →
      ∃ i, i < managers.length ∧ res = [i] ∧
        (managers.getD i noManager).canHandleMessageFromSubprocess message = true ∧
        ∀ j, j < i →
          (managers.getD j noManager).canHandleMessageFromSubprocess message = false) ∧
    (∀ e, receiveMessageFromSubprocess managers message = Except.error e →
      (∀ m ∈ managers, m.canHandleMessageFromSubprocess message = false) ∧
      e = "Subprocess communication manager. No communication manager can handle message type \""
            ++ message.type ++ "\" from subprocess.") := by
  refine ⟨?_, ?_, ?_, ?_⟩
  · intro res h
    obtain ⟨i, hi, hres, hcan, hb⟩ := (routeFromParentLoop_spec message managers 0).1 res h
    exact ⟨i, hi, by simpa using hres, hcan, hb⟩
  · intro e h
    exact (routeFromParentLoop_spec message managers 0).2 e h
  · intro res h
    obtain ⟨i, hi, hres, hcan, hb⟩ := (routeFromSubprocessLoop_spec message managers 0).1 res h
    exact ⟨i, hi, by simpa using hres, hcan, hb⟩
  · intro e h
    exact (routeFromSubprocessLoop_spec message managers 0).2 e h

/-- Witness for C5: with the terminal-like and logger-like managers
registered in that order, a "logger" message from the subprocess is
delivered to the second manager only, and a message of an unregistered
type is unroutable with an error naming the type. -/
theorem router_delivers_to_first_claiming_manager_witness :
    (∃ i, i < ([terminalLikeManager, loggerLikeManager] :
          List SubprocessCommunicationManager).length ∧ ([1] : List Nat) = [i] ∧
        (([terminalLikeManager, loggerLikeManager] :
              List SubprocessCommunicationManager).getD i
            noManager).canHandleMessageFromSubprocess { type := "logger" } = true ∧
        ∀ j, j < i →
          (([terminalLikeManager, loggerLikeManager] :
                List SubprocessCommunicationManager).getD j
              noManager).canHandleMessageFromSubprocess { type := "logger" } = false) ∧
      ((∀ m ∈ ([terminalLikeManager, loggerLikeManager] :
            List SubprocessCommunicationManager),
          m.canHandleMessageFromSubprocess { type := "watcher" } = false) ∧
        ("Subprocess communication manager. No communication manager can handle message type \"watcher\" from subprocess." : String) =
          "Subprocess communication manager. No communication manager can handle message type \""
            ++ (SubprocessMessage.type { type := "watcher" }) ++ "\" from subprocess.") :=
  ⟨(router_delivers_to_first_claiming_manager [terminalLikeManager, loggerLikeManager]
      { type := "logger" }).2.2.1 [1] rfl,
    (router_delivers_to_first_claiming_manager [terminalLikeManager, loggerLikeManager]
      { type := "watcher" }).2.2.2
      "Subprocess communication manager. No communication manager can handle message type \"watcher\" from subprocess."
      rfl⟩

/-- C3: on the parent side, an exit message arriving when hasExited is
already recorded throws the duplicate-exit protocol error instead of
recording anything; the first exit message records hasExited = true and
deserializes the carried argument into the completion error (a throw of
deserializeArg would escape after hasExited is already recorded). -/
theorem exit_message_records_once (managers : List SubprocessCommunicationManager)
    (s : ParentChannelState) (arg : ISubprocessApiCallArg) :
    (s.hasExited = true →
        onSubprocessMessage managers s { type := "exit", error := arg } =
          (s, Except.error
            "Subprocess communication error. Received a duplicate \"exit\" message.")) ∧
      (s.hasExited = false →
        onSubprocessMessage managers s { type := "exit", error := arg } =
          (match deserializeArg arg with
            | .ok v => ({ s with hasExited := true, exitError := v }, Except.ok [])
            | .error e => ({ s with hasExited := true }, Except.error e))) := by
  constructor
  · intro hs
    simp [onSubprocessMessage, hs]
  · intro hs
    simp only [onSubprocessMessage, hs]
    cases hd : deserializeArg arg <;> simp [hd]

/-- Witness for C3: a duplicate exit message on an already-exited
channel throws; a first exit message carrying a serialized Error records
it. -/
theorem exit_message_records_once_witness :
    onSubprocessMessage [] { hasExited := true, exitError := JSValue.undef }
        { type := "exit", error := ISubprocessApiCallArg.undefinedArg } =
      ({ hasExited := true, exitError := JSValue.undef },
        Except.error "Subprocess communication error. Received a duplicate \"exit\" message.") ∧
      onSubprocessMessage [] {}
          { type := "exit", error := ISubprocessApiCallArg.errorArg "task failed" none } =
        ({ hasExited := true, exitError := JSValue.error "task failed" none },
          Except.ok []) :=
  ⟨(exit_message_records_once [] { hasExited := true, exitError := JSValue.undef }
      ISubprocessApiCallArg.undefinedArg).1 rfl,
    (exit_message_records_once [] {}
      (ISubprocessApiCallArg.errorArg "task failed" none)).2 rfl⟩

/-- C4: on the parent side, a non-exit message arriving after the
recorded exit throws the message-after-exit protocol error without
dispatching to any communication manager (the handler result carries no
delivery record), while a non-exit message arriving before the exit is
dispatched to the communication managers via
_receiveMessageFromSubprocess. -/
theorem non_exit_message_after_exit_fatal (managers : List SubprocessCommunicationManager)
    (s : ParentChannelState) (message : SubprocessMessage) (h : message.type ≠ "exit") :
    (s.hasExited = true →
        onSubprocessMessage managers s message =
          (s, Except.error ("Subprocess communication error. Received a message after the subprocess "
            ++ "has indicated that it has exited"))) ∧
      (s.hasExited = false →
        onSubprocessMessage managers s message =
          (s, receiveMessageFromSubprocess managers message)) := by
  constructor
  · intro hs
    simp [onSubprocessMessage, h, hs]
  · intro hs
    simp [onSubprocessMessage, h, hs]

/-- Witness for C4: a "terminal" message after the recorded exit throws;
the same message before the exit is dispatched to the terminal-like
manager. -/
theorem non_exit_message_after_exit_fatal_witness :
    (SubprocessMessage.type { type := "terminal" } ≠ "exit") ∧
      onSubprocessMessage [terminalLikeManager]
          { hasExited := true, exitError := JSValue.undef } { type := "terminal" } =
        ({ hasExited := true, exitError := JSValue.undef },
          Except.error ("Subprocess communication error. Received a message after the subprocess "
            ++ "has indicated that it has exited")) ∧
      onSubprocessMessage [terminalLikeManager] {} { type := "terminal" } =
        ({}, receiveMessageFromSubprocess [terminalLikeManager] { type := "terminal" }) :=
  ⟨by decide,
    (non_exit_message_after_exit_fatal [terminalLikeManager]
      { hasExited := true, exitError := JSValue.undef } { type := "terminal" } (by decide)).1 rfl,
    (non_exit_message_after_exit_fatal [terminalLikeManager] {} { type := "terminal" }
      (by decide)).2 rfl⟩

/-- Without a close event the launch promise is never settled: event
processing either stays pending or ends in an escaped listener throw. -/
theorem runChannelEvents_not_settled_without_close
    (managers : List SubprocessCommunicationManager) (s : ParentChannelState)
    (events : List SubprocessEvent) (h : SubprocessEvent.close ∉ events) :
    (runChannelEvents managers s events).isSettled = false := by
  induction events generalizing s with
  | nil => rfl
  | cons e rest ih =>
    cases e with
    | close => exact absurd (List.mem_cons_self _ _) h
    | message m =>
      have h' : SubprocessEvent.close ∉ rest := fun hc => h (List.mem_cons_of_mem _ hc)
      rcases hr : onSubprocessMessage managers s m with ⟨s', r⟩
      cases r with
      | ok l =>
        have hstep : runChannelEvents managers s (SubprocessEvent.message m :: rest) =
            runChannelEvents managers s' rest := by
          simp [runChannelEvents, hr]
        rw [hstep]
        exact ih s' h'
      | error e' =>
        have hstep : runChannelEvents managers s (SubprocessEvent.message m :: rest) =
            LaunchOutcome.listenerThrew e' := by
          simp [runChannelEvents, hr]
        rw [hstep]
        rfl

/-- C2: the close handler rejects with the recorded completion error if
one was recorded, otherwise rejects with the exited-without-signal error
when no exit message was ever received, and otherwise resolves; and no
outcome is produced before the close event fires. -/
theorem close_event_decides_outcome (managers : List SubprocessCommunicationManager)
    (s : ParentChannelState) (events : List SubprocessEvent) :
    onSubprocessClose s =
        (if s.exitError.truthy then LaunchOutcome.rejected s.exitError
          else if s.hasExited = false then
            LaunchOutcome.rejected
              (JSValue.error "Subprocess exited before sending \"exit\" message." none)
          else LaunchOutcome.resolved) ∧
      (SubprocessEvent.close ∉ events →
        (runChannelEvents managers s events).isSettled = false) := by
  constructor
  · cases hs : s.hasExited <;> simp [onSubprocessClose, hs]
  · intro h
    exact runChannelEvents_not_settled_without_close managers s events h

/-- Witness for C2: a recorded completion error rejects at close, and a
message-only event list settles nothing. -/
theorem close_event_decides_outcome_witness :
    onSubprocessClose { hasExited := true, exitError := JSValue.error "task failed" none } =
        LaunchOutcome.rejected (JSValue.error "task failed" none) ∧
      SubprocessEvent.close ∉ [SubprocessEvent.message { type := "terminal" }] ∧
      (runChannelEvents [terminalLikeManager] {}
          [SubprocessEvent.message { type := "terminal" }]).isSettled = false :=
  ⟨(close_event_decides_outcome []
      { hasExited := true, exitError := JSValue.error "task failed" none } []).1,
    by decide,
    (close_event_decides_outcome [terminalLikeManager] {}
      [SubprocessEvent.message { type := "terminal" }]).2 (by decide)⟩

/-- C1: for every run of the worker bootstrap, whether invokeAsync
completes normally or throws, exactly one message is sent, it is an exit
message whose payload is serializeArg(undefined) on normal completion and
serializeArg(caughtError) on failure, and the removal of all inbound
listeners happens strictly before the send. -/
theorem inner_invoke_sends_exactly_one_exit (outcome : InvokeOutcome) :
    (sentMessages (subprocessRunnerInnerInvoke outcome)).map
        (fun m => (m.type, Except.ok m.error)) =
      [("exit", serializeArg (caughtErrorValue outcome))] ∧
      (subprocessRunnerInnerInvoke outcome).findIdx ProcessAction.isRemoveAllListeners <
        (subprocessRunnerInnerInvoke outcome).findIdx ProcessAction.isSend := by
  cases outcome with
  | completed => exact ⟨rfl, by decide⟩
  | threw m st =>
    refine ⟨rfl, ?_⟩
    have h1 : (subprocessRunnerInnerInvoke (InvokeOutcome.threw m st)).findIdx
        ProcessAction.isRemoveAllListeners = 1 := rfl
    have h2 : (subprocessRunnerInnerInvoke (InvokeOutcome.threw m st)).findIdx
        ProcessAction.isSend = 2 := rfl
    rw [h1, h2]
    omega
